import Mathlib

/-!
Verification of the `cli` package: a `Component` tree with `Name`,
`Runnable`, lazy flag-set creation (`FlagSet`), usage rendering
(`Usage` over `usageTemplate`), and the `Passthrough` dispatcher.

Modelling conventions:
* Go strings are `List Char` (`GoStr`); string literals enter through `gs`.
* The `flag` collaborator is represented by its observable behaviour:
  the outcome of `Parse` (`ParseOutcome`), the text `PrintDefaults`
  produces (`printDefaults`), and a record of its mutable state
  (`GoFlagSet`).  Writes to `io.Writer`s are recorded as `WriteEvent`s.
* The nil-able `flagSet` field of a component is explicit state of type
  `Option GoFlagSet`; a nil-pointer dereference is `Option.none` in the
  result.
-/

/-- Go strings, modelled as lists of characters (runes). -/
abbrev GoStr := List Char

/-- Conversion from a Lean string literal to the Go string model. -/
def gs (s : String) : GoStr := s.toList

/-- First index of the character `ch` in `s`; models `strings.Index(s, " ")`
for the one-character pattern that `Name` searches for. -/
def strIndexChar : GoStr → Char → Option Nat
  | [], _ => none
  | c :: rest, ch => if c = ch then some 0 else (strIndexChar rest ch).map (· + 1)

/-- Go `unicode.IsSpace` on the Latin-1 range, the white-space test behind
`strings.TrimSpace` (the template's `trim` function). -/
def isGoSpace (c : Char) : Bool :=
  c == ' ' || c == '\t' || c == '\n' || c == '\x0B' || c == '\x0C' || c == '\r' ||
    c == '\u0085' || c == '\u00A0'

/-- Go `strings.TrimSpace`: drop leading and trailing white space. -/
def goTrimSpace (s : GoStr) : GoStr :=
  ((s.dropWhile isGoSpace).reverse.dropWhile isGoSpace).reverse

/-- Go `printf "%-11s"`: left-justify to a minimum width of 11 runes. -/
def printf11 (s : GoStr) : GoStr := s ++ List.replicate (11 - s.length) ' '

/-- The `Component` struct: sub-components, presence of the `Run` callback
(`run`; the callback's body is external behaviour), and the three
description strings.  The unexported `flagSet` pointer is modelled as
separate explicit state (`Option GoFlagSet`) threaded through the
methods that touch it. -/
inductive Component : Type where
  | mk (components : List Component) (run : Bool) (usageLine : GoStr)
      (short : GoStr) (long : GoStr)

/-- The `Components` field. -/
def Component.Components : Component → List Component
  | .mk cs _ _ _ _ => cs

/-- Whether the `Run` callback is non-nil. -/
def Component.run : Component → Bool
  | .mk _ r _ _ _ => r

/-- The `UsageLine` field. -/
def Component.UsageLine : Component → GoStr
  | .mk _ _ u _ _ => u

/-- The `Short` field. -/
def Component.Short : Component → GoStr
  | .mk _ _ _ s _ => s

/-- The `Long` field. -/
def Component.Long : Component → GoStr
  | .mk _ _ _ _ l => l

/-- `Name` returns the first word of `UsageLine`: the prefix before the
first space when `strings.Index` finds one, the whole line otherwise. -/
def Component.Name (c : Component) : GoStr :=
  match strIndexChar c.UsageLine ' ' with
  | some i => c.UsageLine.take i
  | none => c.UsageLine

/-- `Runnable` returns whether this component is runnable (`Run != nil`). -/
def Component.Runnable (c : Component) : Bool := c.run

/-- The same component with the `Run` callback present or absent. -/
def Component.withRun : Component → Bool → Component
  | .mk cs _ u s l, b => .mk cs b u s l

/-- One registered flag of the flag collaborator: name, type hint, default
value and help text. -/
structure FlagSpec where
  flagName : GoStr
  typeHint : GoStr
  defValue : GoStr
  helpText : GoStr
deriving DecidableEq

/-- The flag collaborator's standard formatter (`flag.PrintDefaults`):
one indented entry per registered flag — two spaces, a dash and the flag
name, the type hint, an optional default, then the help text on an
indented continuation line.  The layout is the collaborator's own; the
facts used below are only that it emits one non-empty entry per
registered flag and nothing for an empty flag set. -/
def flagEntry (f : FlagSpec) : GoStr :=
  gs "  -" ++ f.flagName ++ gs " " ++ f.typeHint ++
    (if f.defValue = [] then [] else gs " (default " ++ f.defValue ++ gs ")") ++
    gs "\n    \t" ++ f.helpText ++ gs "\n"

/-- `flag.PrintDefaults` output for a list of registered flags. -/
def printDefaults (fl : List FlagSpec) : GoStr := (fl.map flagEntry).flatten

/-- The text `tmpl(output, usageTemplate, {component, flags})` produces,
transcribed action by action from `usageTemplate`.  The two left-trim
markers of the template erase the newline after the usage-line segment
and the newline after the long-description segment, so those two
segments are emitted back to back; the newline before the flags segment
carries no trim marker and is always emitted. -/
def usageTemplateRender (c : Component) (flags : GoStr) : GoStr :=
  (if c.Runnable then gs "Usage: " ++ c.UsageLine else []) ++
  (if c.Long.length ≠ 0 then goTrimSpace c.Long else []) ++
  (if c.Components.length ≠ 0 then
      gs "\nThe components are:\n" ++
        (c.Components.map (fun ch =>
          if ch.Runnable then gs "\n  " ++ printf11 ch.Name ++ gs " " ++ ch.Short
          else [])).flatten
    else []) ++
  gs "\n" ++
  (if flags.length ≠ 0 then gs "\nThe flags are:\n" ++ flags else [])

/-- A write to one of the two writers `Usage` touches: the temporary byte
buffer, or the component's configured output sink. -/
inductive WriteEvent : Type where
  | toBuf (s : GoStr)
  | toSink (s : GoStr)
deriving DecidableEq

/-- The writes `Usage` performs once the flag-set exists: `PrintDefaults`
into the intermediate buffer (the flag-set's output is redirected to the
buffer and restored afterwards), then one template execution to the
restored output sink with the captured text interleaved at the flags
position. -/
def usageEvents (c : Component) (fl : List FlagSpec) : List WriteEvent :=
  [WriteEvent.toBuf (printDefaults fl),
   WriteEvent.toSink (usageTemplateRender c (printDefaults fl))]

/-- The payloads of the writes that reach the final output sink. -/
def sinkWrites (evs : List WriteEvent) : List GoStr :=
  evs.filterMap fun ev =>
    match ev with
    | .toBuf _ => none
    | .toSink s => some s

/-- The mutable state of a `flag.FlagSet` as this package uses it: an
allocation identity, the name it was created with, whether its `Usage`
callback has been re-wired to the component's `Usage` method, the
registered flags, and the output sink (`none` = stderr default). -/
structure GoFlagSet where
  allocId : Nat
  fsName : GoStr
  usageWired : Bool
  flags : List FlagSpec
  output : Option Nat
deriving DecidableEq

/-- `FlagSet()`: return the component's flag-set, creating it on first
call.  `st` is the current value of the `flagSet` field (`none` = nil);
`fresh` is the identity a new allocation would receive.  On the nil
branch the code runs `flag.NewFlagSet(c.Name(), flag.ExitOnError)` and
then wires `flagSet.Usage = c.Usage`.  Returns the flag-set handed to
the caller together with the updated field. -/
def Component.FlagSet (c : Component) (st : Option GoFlagSet) (fresh : Nat) :
    GoFlagSet × Option GoFlagSet :=
  match st with
  | none =>
      let fs : GoFlagSet :=
        { allocId := fresh, fsName := c.Name, usageWired := true,
          flags := [], output := none }
      (fs, some fs)
  | some fs => (fs, some fs)

/-- `SetOutput`: redirect the flag-set's output, creating the flag-set
first through `FlagSet()`. -/
def Component.SetOutput (c : Component) (st : Option GoFlagSet) (fresh : Nat)
    (output : Option Nat) : Option GoFlagSet :=
  some { (c.FlagSet st fresh).1 with output := output }

/-- `Usage()` reads the `flagSet` field directly — `c.flagSet.Output()` on
the first line — without lazy creation, so a nil field is a nil-pointer
dereference, modelled as `none`; otherwise it performs the buffer capture
and the single template write (`usageEvents`). -/
def Component.Usage (c : Component) (st : Option GoFlagSet) :
    Option (List WriteEvent) :=
  match st with
  | none => none
  | some fs => some (usageEvents c fs.flags)

/-- Outcome of the flag collaborator's `Parse` on an argument vector:
either the distinguished help request (`flag.ErrHelp`), or success with
the remaining positional arguments (what `Args()` then returns). -/
inductive ParseOutcome : Type where
  | errHelp
  | ok (positional : List GoStr)
deriving DecidableEq

/-- The observable outcome of one `Passthrough` invocation: return after a
help request, print this component's usage, or invoke the child at the
given index with the given context and argument slice. -/
inductive PassthroughResult (Ctx : Type) : Type where
  | helpReturn
  | printUsage
  | runChild (ctx : Ctx) (index : Nat) (args : List GoStr)
deriving DecidableEq

/-- The child-scanning loop of `Passthrough`: walk `Components` in order;
on a child whose name equals the candidate, dispatch if it is runnable,
otherwise keep scanning; print usage when the list is exhausted. -/
def dispatchLoop {Ctx : Type} (ctx : Ctx) (name : GoStr) (rest : List GoStr) :
    List Component → Nat → PassthroughResult Ctx
  | [], _ => .printUsage
  | comp :: more, i =>
      if name = comp.Name then
        (if comp.Runnable then .runChild ctx i rest
         else dispatchLoop ctx name rest more (i + 1))
      else dispatchLoop ctx name rest more (i + 1)

/-- `Passthrough`: parse (outcome supplied by the collaborator as
`parsed`), return on help, print usage when fewer than one positional
argument remains, else look up the first positional argument among the
children and dispatch with `Args()[1:]`. -/
def Passthrough {Ctx : Type} (ctx : Ctx) (parsed : ParseOutcome)
    (component : Component) : PassthroughResult Ctx :=
  match parsed with
  | .errHelp => .helpReturn
  | .ok pos =>
      if pos.length < 1 then .printUsage
      else dispatchLoop ctx (pos.headD []) (pos.drop 1) component.Components 0

/-- Index of the first child whose `Name()` equals the candidate and which
is `Runnable()` — the child the specification's dispatch rule selects. -/
def firstRunnableMatch (name : GoStr) : List Component → Option Nat
  | [] => none
  | ch :: rest =>
      if ch.Name = name ∧ ch.Runnable then some 0
      else (firstRunnableMatch name rest).map (· + 1)

/-- Join pieces with one separator between consecutive pieces. -/
def joinSep (sep : GoStr) : List GoStr → GoStr
  | [] => []
  | [x] => x
  | x :: xs => x ++ sep ++ joinSep sep xs

/-- The lines of a string, split at every newline. -/
def splitLines : GoStr → List GoStr
  | [] => [[]]
  | c :: rest =>
      if c = '\n' then [] :: splitLines rest
      else
        match splitLines rest with
        | [] => [[c]]
        | l :: ls => (c :: l) :: ls

/-- Whether the text contains a blank line, i.e. two consecutive newlines. -/
def hasBlankLine : GoStr → Bool
  | '\n' :: '\n' :: _ => true
  | _ :: rest => hasBlankLine rest
  | [] => false

/-- Block 1 of the usage text: the usage line, present iff runnable. -/
def usageBlockSpec (c : Component) : GoStr :=
  if c.Runnable then gs "Usage: " ++ c.UsageLine else []

/-- Block 2 of the usage text: the trimmed long description, present iff
the raw `Long` field is non-empty. -/
def longBlockSpec (c : Component) : GoStr :=
  if c.Long.length ≠ 0 then goTrimSpace c.Long else []

/-- One listed child line as the code renders it: a two-space indent, the
name left-justified to width 11, one space, the short description. -/
def childLine (ch : Component) : GoStr :=
  gs "  " ++ printf11 ch.Name ++ gs " " ++ ch.Short

/-- The components block described line-wise: a leading newline, then the
header line, a blank line, and one line per runnable child, all joined by
newlines; present iff there are children. -/
def componentsBlockLines (c : Component) : GoStr :=
  if c.Components.length ≠ 0 then
    gs "\n" ++ joinSep (gs "\n")
      (gs "The components are:" :: [] ::
        (c.Components.filter Component.Runnable).map childLine)
  else []

/-- The flags block: present iff the captured listing is non-empty, and
preceded by one extra newline (the blank line before its header). -/
def flagsBlockSpec (flags : GoStr) : GoStr :=
  if flags.length ≠ 0 then gs "\nThe flags are:\n" ++ flags else []

/-- The usage text as claim C2 words it: the present blocks, in order,
joined with exactly one blank line between consecutive present blocks.
The block contents follow the specification's own descriptions. -/
def renderClaimC2 (c : Component) (flags : GoStr) : GoStr :=
  joinSep (gs "\n\n")
    (([usageBlockSpec c, longBlockSpec c,
       (if c.Components.length ≠ 0 then
          gs "The components are:\n" ++
            joinSep (gs "\n")
              ((c.Components.filter Component.Runnable).map
                (fun ch => printf11 ch.Name ++ gs " " ++ ch.Short))
        else []),
       (if flags.length ≠ 0 then gs "The flags are:\n" ++ flags else [])]).filter
      (fun b => !b.isEmpty))

/-- A runnable component with usage line u and long description L. -/
def cexGlue : Component := .mk [] true (gs "u") [] (gs "L")

/-- A runnable child named a with short description s. -/
def childA : Component := .mk [] true (gs "a") (gs "s") []

/-- A runnable parent with the single runnable child `childA`. -/
def cexComponents : Component := .mk [childA] true (gs "u") [] []

/-- A non-runnable child named noRun. -/
def childNoRun : Component := .mk [] false (gs "noRun") (gs "informational") []

/-- A parent whose children are a non-runnable and a runnable component,
the runnable one named subcomponent1. -/
def parentDemo : Component :=
  .mk [childNoRun, .mk [] true (gs "subcomponent1") (gs "description of subcomponent 1") []]
    true (gs "test [-i input]") [] []

/-- A parent whose only child matching the candidate name is not runnable. -/
def parentNoRunnable : Component :=
  .mk [.mk [] false (gs "subcomponent1") (gs "description of subcomponent 1") []]
    true (gs "test [-i input]") [] []

/-- A component with an empty usage line. -/
def cmpEmptyLine : Component := .mk [] false [] [] []

/-- A component whose usage line contains a space. -/
def cmpTestLine : Component := .mk [] false (gs "test [-i input]") [] []

/-- A component whose usage line contains no space. -/
def cmpNoSpaceLine : Component := .mk [] false (gs "test") [] []

/-! ## Helper lemmas -/

theorem joinSep_cons (sep : GoStr) (e : GoStr) (tl : List GoStr) :
    joinSep sep (e :: tl) = e ++ (tl.map (fun x => sep ++ x)).flatten := by
  induction tl generalizing e with
  | nil => simp [joinSep]
  | cons x xs ih => simp [joinSep, ih x, List.append_assoc]

theorem flatten_map_ite (p : Component → Bool) (f : Component → GoStr)
    (l : List Component) :
    (l.map (fun ch => if p ch then f ch else [])).flatten =
      ((l.filter p).map f).flatten := by
  induction l with
  | nil => rfl
  | cons hd tl ih =>
      by_cases h : p hd <;> simp [List.filter_cons, h, ih]

theorem render_eq_blocks (c : Component) (flags : GoStr) :
    usageTemplateRender c flags =
      usageBlockSpec c ++ longBlockSpec c ++ componentsBlockLines c ++
        gs "\n" ++ flagsBlockSpec flags := by
  have hmap : (fun ch : Component =>
        if ch.Runnable then gs "\n  " ++ printf11 ch.Name ++ gs " " ++ ch.Short else [])
      = (fun ch => if ch.Runnable then gs "\n" ++ childLine ch else []) := by
    funext ch
    by_cases h : ch.Runnable <;> simp [h, childLine, gs, List.append_assoc]
  have hseg : (if c.Components.length ≠ 0 then
      gs "\nThe components are:\n" ++
        (c.Components.map (fun ch =>
          if ch.Runnable then gs "\n  " ++ printf11 ch.Name ++ gs " " ++ ch.Short
          else [])).flatten
    else []) = componentsBlockLines c := by
    by_cases h : c.Components.length ≠ 0
    · simp only [componentsBlockLines, h, if_pos, hmap]
      rw [joinSep_cons,
        flatten_map_ite Component.Runnable (fun ch => gs "\n" ++ childLine ch)]
      simp [List.map_map, Function.comp_def, gs, List.append_assoc]
    · simp [componentsBlockLines, h]
  simp only [usageTemplateRender, usageBlockSpec, longBlockSpec, flagsBlockSpec, hseg]

theorem printDefaults_cons_ne_nil (f : FlagSpec) (fs : List FlagSpec) :
    printDefaults (f :: fs) ≠ [] := by
  simp [printDefaults, flagEntry, gs]

theorem render_flags_split (c : Component) (g : GoStr) :
    usageTemplateRender c g = usageTemplateRender c [] ++ flagsBlockSpec g := by
  simp [usageTemplateRender, flagsBlockSpec, List.append_assoc]

theorem dispatchLoop_of_firstMatch {Ctx : Type} (ctx : Ctx) (name : GoStr)
    (rest : List GoStr) :
    ∀ (l : List Component) (i j : Nat),
      firstRunnableMatch name l = some j →
      dispatchLoop ctx name rest l i = PassthroughResult.runChild ctx (i + j) rest := by
  intro l
  induction l with
  | nil => intro i j h; simp [firstRunnableMatch] at h
  | cons hd tl ih =>
      intro i j h
      by_cases hm : hd.Name = name ∧ hd.Runnable
      · have h0 : j = 0 := by
          simp [firstRunnableMatch, hm] at h
          omega
        subst h0
        simp [dispatchLoop, hm.1, hm.2]
      · have hstep : dispatchLoop ctx name rest (hd :: tl) i =
            dispatchLoop ctx name rest tl (i + 1) := by
          by_cases hn : name = hd.Name
          · have hr : ¬ (hd.Runnable : Prop) := fun hr => hm ⟨hn.symm, hr⟩
            simp [dispatchLoop, hn, hr]
          · simp [dispatchLoop, hn]
        rw [hstep]
        simp only [firstRunnableMatch, if_neg hm] at h
        cases hj : firstRunnableMatch name tl with
        | none => rw [hj] at h; simp at h
        | some j0 =>
            rw [hj] at h
            simp at h
            rw [ih (i + 1) j0 hj]
            congr 1
            omega

theorem dispatchLoop_of_noMatch {Ctx : Type} (ctx : Ctx) (name : GoStr)
    (rest : List GoStr) :
    ∀ (l : List Component) (i : Nat),
      firstRunnableMatch name l = none →
      dispatchLoop ctx name rest l i = PassthroughResult.printUsage := by
  intro l
  induction l with
  | nil => intro i _; rfl
  | cons hd tl ih =>
      intro i h
      by_cases hm : hd.Name = name ∧ hd.Runnable
      · simp [firstRunnableMatch, hm] at h
      · have hstep : dispatchLoop ctx name rest (hd :: tl) i =
            dispatchLoop ctx name rest tl (i + 1) := by
          by_cases hn : name = hd.Name
          · have hr : ¬ (hd.Runnable : Prop) := fun hr => hm ⟨hn.symm, hr⟩
            simp [dispatchLoop, hn, hr]
          · simp [dispatchLoop, hn]
        rw [hstep]
        simp only [firstRunnableMatch, if_neg hm] at h
        exact ih (i + 1) (by
          cases hj : firstRunnableMatch name tl with
          | none => rfl
          | some j0 => rw [hj] at h; simp at h)

theorem firstRunnableMatch_eq_none {name : GoStr} {l : List Component}
    (h : ∀ ch ∈ l, ¬ (ch.Name = name ∧ ch.Runnable)) :
    firstRunnableMatch name l = none := by
  induction l with
  | nil => rfl
  | cons hd tl ih =>
      have hh := h hd (by simp)
      simp only [firstRunnableMatch, if_neg hh]
      rw [ih fun ch hch => h ch (by simp [hch])]
      rfl

theorem strIndex_take_eq_takeWhile (l : GoStr) :
    (match strIndexChar l ' ' with
     | some i => l.take i
     | none => l) = l.takeWhile (fun ch => ch != ' ') := by
  induction l with
  | nil => rfl
  | cons c0 rest ih =>
      by_cases h0 : c0 = ' '
      · subst h0
        simp [strIndexChar, List.takeWhile]
      · cases hr : strIndexChar rest ' ' with
        | none =>
            rw [hr] at ih
            simp at ih
            have hb : (c0 != ' ') = true := by simp [h0]
            simp only [strIndexChar, if_neg h0, hr, Option.map_none']
            simp [List.takeWhile_cons, hb]
            exact ih
        | some i0 =>
            rw [hr] at ih
            simp at ih
            have hb : (c0 != ' ') = true := by simp [h0]
            simp only [strIndexChar, if_neg h0, hr, Option.map_some']
            simp [List.takeWhile_cons, hb]
            exact ih

theorem name_eq_takeWhile (c : Component) :
    c.Name = c.UsageLine.takeWhile (fun ch => ch != ' ') :=
  strIndex_take_eq_takeWhile c.UsageLine

/-! ## Claim theorems -/

/-- Claim C1: when at least one positional argument remains after flag
parsing and some child's Name() equals the first remaining positional
argument and that child is Runnable(), Passthrough invokes the first such
child's action with the same execution context and the remaining
positional arguments with the first one removed, then returns. -/
theorem passthrough_dispatches_first_runnable_match {Ctx : Type} (ctx : Ctx)
    (c : Component) (name : GoStr) (rest : List GoStr) (j : Nat)
    (h : firstRunnableMatch name c.Components = some j) :
    Passthrough ctx (ParseOutcome.ok (name :: rest)) c =
      PassthroughResult.runChild ctx j rest := by
  simp only [Passthrough]
  rw [if_neg (by simp)]
  simpa using dispatchLoop_of_firstMatch ctx name rest c.Components 0 j h

/-- Witness for C1 at the specification's dispatch scenario: a parent with
a non-runnable first child and a runnable child named subcomponent1,
invoked with positional arguments [subcomponent1, x], runs the child at
index 1 with arguments [x] and the unchanged context. -/
theorem passthrough_dispatches_first_runnable_match_witness :
    firstRunnableMatch (gs "subcomponent1") parentDemo.Components = some 1 ∧
    Passthrough (0 : Nat) (ParseOutcome.ok [gs "subcomponent1", gs "x"]) parentDemo =
      PassthroughResult.runChild 0 1 [gs "x"] :=
  ⟨by decide,
   passthrough_dispatches_first_runnable_match 0 parentDemo (gs "subcomponent1")
     [gs "x"] 1 (by decide)⟩

/-- Claim C2 as stated is false on the code: for the runnable component
`cexGlue` with usage line u and non-empty long description L — two present
blocks — the template renders them glued together, the whole output
contains no blank line, and it differs from the claim's form in which the
present blocks are joined by exactly one blank line. -/
theorem usage_blocks_blank_line_counterexample :
    usageTemplateRender cexGlue [] = gs "Usage: uL\n" ∧
    hasBlankLine (usageTemplateRender cexGlue []) = false ∧
    usageTemplateRender cexGlue [] ≠ renderClaimC2 cexGlue [] := by
  decide

/-- Claim C2 (amended): Usage() output consists of up to four blocks —
usage line (only if runnable), trimmed long description (only if the raw
long text is non-empty), components block (only if there are children),
flags block (only if the captured listing is non-empty) — with these
separators: the long description follows the usage line with no separator,
the components block is preceded by a single newline, one newline always
follows these three blocks, and only the flags block is preceded by an
additional newline, i.e. one blank line; nothing follows the flags
listing. -/
theorem usage_blocks_structure (c : Component) (flags : GoStr) :
    usageTemplateRender c flags =
      usageBlockSpec c ++ longBlockSpec c ++ componentsBlockLines c ++
        gs "\n" ++ flagsBlockSpec flags :=
  render_eq_blocks c flags

/-- Claim C3: with no positional argument remaining, or when no child both
matches the candidate name and is runnable, Passthrough prints the current
component's usage and returns normally — the result is `printUsage`, no
child action is invoked, and the function is total (no panic, no error). -/
theorem passthrough_fallback_prints_usage {Ctx : Type} (ctx : Ctx)
    (c : Component) (pos : List GoStr)
    (h : pos = [] ∨
      ∀ ch ∈ c.Components, ¬ (ch.Name = pos.headD [] ∧ ch.Runnable)) :
    Passthrough ctx (ParseOutcome.ok pos) c = PassthroughResult.printUsage := by
  cases pos with
  | nil => simp [Passthrough]
  | cons a rest =>
      cases h with
      | inl h => exact absurd h (by simp)
      | inr h =>
          simp only [List.headD_cons] at h
          simp only [Passthrough]
          rw [if_neg (by simp)]
          have hn := firstRunnableMatch_eq_none h
          simpa using dispatchLoop_of_noMatch ctx a rest c.Components 0 hn

/-- Witness for C3 at the specification's scenario: the candidate name
matches a child that is not runnable, so usage is printed and no action
is invoked. -/
theorem passthrough_fallback_prints_usage_witness :
    (([gs "subcomponent1"] : List GoStr) = [] ∨
      ∀ ch ∈ parentNoRunnable.Components,
        ¬ (ch.Name = ([gs "subcomponent1"] : List GoStr).headD [] ∧ ch.Runnable)) ∧
    Passthrough (0 : Nat) (ParseOutcome.ok [gs "subcomponent1"]) parentNoRunnable =
      PassthroughResult.printUsage :=
  ⟨by decide,
   passthrough_fallback_prints_usage 0 parentNoRunnable [gs "subcomponent1"] (by decide)⟩

/-- Claim C4: Usage() captures the flag collaborator's default-formatted
listing into the intermediate buffer first, writes the combined text to
the final output sink exactly once, and that single write carries the
flags block — the header `The flags are:` followed by the listing
verbatim — exactly when at least one flag is registered. -/
theorem usage_flags_block_capture_and_single_write (c : Component)
    (fl : List FlagSpec) :
    usageEvents c fl =
      [WriteEvent.toBuf (printDefaults fl),
       WriteEvent.toSink (usageTemplateRender c [] ++
         (if fl = [] then [] else gs "\nThe flags are:\n" ++ printDefaults fl))] ∧
    sinkWrites (usageEvents c fl) =
      [usageTemplateRender c [] ++
        (if fl = [] then [] else gs "\nThe flags are:\n" ++ printDefaults fl)] := by
  have hs : usageTemplateRender c (printDefaults fl) =
      usageTemplateRender c [] ++
        (if fl = [] then [] else gs "\nThe flags are:\n" ++ printDefaults fl) := by
    rw [render_flags_split]
    congr 1
    cases fl with
    | nil => rfl
    | cons f fs =>
        have hne := printDefaults_cons_ne_nil f fs
        simp [flagsBlockSpec, List.length_eq_zero, hne]
  exact ⟨by simp [usageEvents, hs], by simp [usageEvents, sinkWrites, hs]⟩

/-- Claim C5: the rendered usage text of a component is the prefix
`Usage: <usageLine>` exactly when the component is runnable, followed by
the rendering of the same component with its Run callback removed; for a
non-runnable component the prefix is absent and the output is unchanged. -/
theorem usage_line_iff_runnable (c : Component) (flags : GoStr) :
    usageTemplateRender c flags =
      (if c.Runnable then gs "Usage: " ++ c.UsageLine else []) ++
        usageTemplateRender (c.withRun false) flags := by
  cases c with
  | mk cs r u s l =>
      cases r <;>
        simp [usageTemplateRender, Component.withRun, Component.Runnable,
          Component.run, Component.Components, Component.UsageLine,
          Component.Short, Component.Long, List.append_assoc]

/-- Claim C6 as stated is false on the code: for `cexComponents` — one
runnable child named a with short description s — the rendered block puts
a blank line after the header and writes a two-space indent before the
padded name, so the line the claim predicts (the Name() left-justified to
width 11, a single space, the short description) appears on no line of
the output. -/
theorem components_block_claim_counterexample :
    usageTemplateRender cexComponents [] =
      gs "Usage: u\nThe components are:\n\n  a           s\n" ∧
    (splitLines (usageTemplateRender cexComponents [])).contains
      (printf11 (gs "a") ++ gs " " ++ gs "s") = false := by
  decide

/-- Claim C6 (amended): when the children sequence is non-empty the usage
text contains the components block: a leading newline, the header line
`The components are:`, a blank line, then one line per runnable child in
child-insertion order, each line being two spaces, the child's Name()
left-justified to a minimum width of 11 characters, a single space, and
the child's short description; non-runnable children are not listed at
all. -/
theorem components_block_structure (c : Component) (flags : GoStr)
    (h : c.Components ≠ []) :
    ∃ pre post, usageTemplateRender c flags =
      pre ++ (gs "\n" ++ joinSep (gs "\n")
        (gs "The components are:" :: [] ::
          (c.Components.filter Component.Runnable).map childLine)) ++ post := by
  refine ⟨usageBlockSpec c ++ longBlockSpec c, gs "\n" ++ flagsBlockSpec flags, ?_⟩
  rw [render_eq_blocks]
  have hlen : c.Components.length ≠ 0 := by
    simpa [List.length_eq_zero] using h
  simp [componentsBlockLines, hlen, List.append_assoc]

/-- Witness for the amended C6 on a parent with one non-runnable and one
runnable child. -/
theorem components_block_structure_witness :
    ∃ pre post, usageTemplateRender parentDemo [] =
      pre ++ (gs "\n" ++ joinSep (gs "\n")
        (gs "The components are:" :: [] ::
          (parentDemo.Components.filter Component.Runnable).map childLine)) ++ post :=
  components_block_structure parentDemo [] (by simp [parentDemo, Component.Components])

/-- Claim C7: Name() is the first word of the usage line — empty when the
usage line is empty, the substring before the first space when the line
contains one, and the whole line when it contains no space; as a Lean
function of the component it is pure and deterministic by construction. -/
theorem name_first_word (c : Component) :
    (c.UsageLine = [] → c.Name = []) ∧
    (' ' ∈ c.UsageLine → c.Name = c.UsageLine.takeWhile (fun ch => ch != ' ')) ∧
    (' ' ∉ c.UsageLine → c.Name = c.UsageLine) := by
  refine ⟨?_, ?_, ?_⟩
  · intro h
    rw [name_eq_takeWhile, h]
    rfl
  · intro _
    exact name_eq_takeWhile c
  · intro h
    rw [name_eq_takeWhile]
    exact List.takeWhile_eq_self_iff.mpr fun x hx => by
      simp
      exact fun he => h (he ▸ hx)

/-- Witness for C7: the empty usage line, the test fixture line with a
space, and a line without spaces. -/
theorem name_first_word_witness :
    Component.Name cmpEmptyLine = [] ∧
    Component.Name cmpTestLine = gs "test" ∧
    Component.Name cmpNoSpaceLine = gs "test" :=
  ⟨(name_first_word cmpEmptyLine).1 (by decide),
   ((name_first_word cmpTestLine).2.1 (by decide)).trans (by decide),
   (name_first_word cmpNoSpaceLine).2.2 (by decide)⟩

/-- Claim C8: when Parse signals the help request, Passthrough returns
immediately: the result is `helpReturn`, distinct by construction from
`printUsage` (no additional usage text) and from every `runChild` (no
dispatch), and it is an ordinary return, not an error. -/
theorem passthrough_help_short_circuit {Ctx : Type} (ctx : Ctx) (c : Component) :
    Passthrough ctx ParseOutcome.errHelp c = PassthroughResult.helpReturn := rfl

/-- Claim C9: the first FlagSet() call on a nil field creates the flag-set
bound to Name() with its usage callback wired to the component's Usage,
and stores it; a second call — whatever identity a fresh allocation would
have received — returns the very same flag-set value and leaves the
stored state unchanged. -/
theorem flagset_lazy_init_idempotent (c : Component) (f1 f2 : Nat) :
    (c.FlagSet none f1).1.fsName = c.Name ∧
    (c.FlagSet none f1).1.usageWired = true ∧
    (c.FlagSet none f1).2 = some (c.FlagSet none f1).1 ∧
    c.FlagSet (c.FlagSet none f1).2 f2 =
      ((c.FlagSet none f1).1, (c.FlagSet none f1).2) :=
  ⟨rfl, rfl, rfl, rfl⟩

/-- Claim C10: Usage() reads the flagSet field without lazy creation — on
a fresh component where neither FlagSet() nor SetOutput() has ever run
the field is nil and Usage dereferences it (the `none` result models the
panic); after any FlagSet() or SetOutput() call the field is non-nil and
the nil branch of Usage is unreachable. -/
theorem usage_nil_flagset_panics (c : Component) :
    c.Usage none = none ∧
    (∀ st fresh, (c.Usage (c.FlagSet st fresh).2).isSome = true) ∧
    (∀ st fresh out, (c.Usage (c.SetOutput st fresh out)).isSome = true) := by
  refine ⟨rfl, ?_, ?_⟩
  · intro st fresh
    cases st <;> rfl
  · intro st fresh out
    cases st <;> rfl
